import Mathlib

/-!
Verification of the AI chat service (`chatbot.py`).

Python strings are modelled as `List Char`; the optional / nullable JSON
fields of the request body are modelled explicitly.  The external LLM
provider is modelled as a function parameter returning `Except` (an
exception message on failure), matching the `try`/`except` structure of
the source.
-/

set_option autoImplicit false

namespace Chatbot

/-! ### Prompt template (`GeminiChatService.__init__` / `generate_response`) -/

/-- The fixed instructional preamble of the chat prompt template. -/
def preamble : List Char := "You are a helpful AI assistant. ".data

/-- The template text standing between the background context and the user
message (a blank line followed by the inquiry tag). -/
def userInquiryTag : List Char := "\n\nUser inquiry: ".data

/-- The tag prepended to a non-empty context. -/
def contextTag : List Char := "Context: ".data

/-- The bare word the specification speaks about when it says the prompt
contains no occurrence of the context marker. -/
def contextWord : List Char := "Context:".data

/-- The `background_context` payload entry of `generate_response`:
Python evaluates `f"Context: {context}" if context else ""`, where an empty
string is falsy. -/
def backgroundContext (context : List Char) : List Char :=
  if context = [] then [] else contextTag ++ context

/-- Rendering of the chat prompt template: the preamble, then the
`background_context` entry, then the inquiry tag and the user message. -/
def renderPrompt (context message : List Char) : List Char :=
  preamble ++ backgroundContext context ++ userInquiryTag ++ message

/-! ### Conversation service (`GeminiChatService.generate_response`) -/

/-- An `HTTPException` raised by the service: status code and detail text. -/
structure HTTPException where
  status_code : Nat
  detail : List Char
  deriving DecidableEq, Repr

/-- The detail text prepended to the underlying provider error. -/
def aiFailureTag : List Char := "AI processing failed: ".data

/-- `generate_response`: renders the prompt and invokes the processing
chain; a failure of the chain (an exception carrying message `e`) is
re-raised as an `HTTPException` with status 500 and detail
`"AI processing failed: " ++ e`. The chain is modelled as a function from
the rendered prompt to a completion or an exception message. -/
def generate_response (complete : List Char → Except (List Char) (List Char))
    (user_msg : List Char) (context : List Char) : Except HTTPException (List Char) :=
  match complete (renderPrompt context user_msg) with
  | Except.ok r => Except.ok r
  | Except.error e => Except.error ⟨500, aiFailureTag ++ e⟩

/-! ### Request validation (`MessageRequest`) and the POST handler -/

/-- The `background_info` JSON field of a request body: absent, JSON null,
or a string (the pydantic type is `Union[str, None]` with default `None`). -/
inductive JsonField where
  | absent : JsonField
  | null : JsonField
  | str : List Char → JsonField
  deriving DecidableEq, Repr

/-- pydantic validation of `MessageRequest.message`
(`Field(..., min_length=1)`): the field must be present and its raw length
must be at least 1. `none` models an absent field. -/
def validateMessage : Option (List Char) → Option (List Char)
  | none => none
  | some s => if 1 ≤ s.length then some s else none

/-- pydantic coercion of `MessageRequest.background_info`: an absent field
takes the default `None`, JSON null is `None`, a string is kept. -/
def validateBackgroundInfo : JsonField → Option (List Char)
  | JsonField.absent => none
  | JsonField.null => none
  | JsonField.str s => some s

/-- Python `x or ""` applied to an optional string: `None` and the empty
string are falsy and give `""`. -/
def orEmptyStr : Option (List Char) → List Char
  | none => []
  | some s => if s = [] then [] else s

/-- The HTTP outcome of `POST /conversation`: a 200 reply body, a 422
validation rejection, or an error raised as `HTTPException`. -/
inductive HttpResponse where
  | success : List Char → HttpResponse
  | unprocessable : HttpResponse
  | failure : Nat → List Char → HttpResponse
  deriving DecidableEq, Repr

/-- The HTTP status code of a response. -/
def HttpResponse.status : HttpResponse → Nat
  | HttpResponse.success _ => 200
  | HttpResponse.unprocessable => 422
  | HttpResponse.failure s _ => s

/-- The `/conversation` endpoint: validation of the request body followed
by `handle_conversation`, which calls the service with
`context = req.background_info or ""` and wraps the result in
`MessageResponse(reply=...)`. -/
def handle_conversation (complete : List Char → Except (List Char) (List Char))
    (message : Option (List Char)) (background_info : JsonField) : HttpResponse :=
  match validateMessage message with
  | none => HttpResponse.unprocessable
  | some msg =>
    match generate_response complete msg (orEmptyStr (validateBackgroundInfo background_info)) with
    | Except.ok r => HttpResponse.success r
    | Except.error e => HttpResponse.failure e.status_code e.detail

/-! ### Substring occurrences

Machinery for the claims about the substrings of the rendered prompt:
`startsWith pat l` checks that `pat` is an initial segment of `l`,
`occursIn pat l` states that `pat` occurs contiguously inside `l`, and
`countOcc pat l` counts the occurrence positions. -/

/-- `startsWith pat l` is true when `pat` is an initial segment of `l`. -/
def startsWith : List Char → List Char → Bool
  | [], _ => true
  | _ :: _, [] => false
  | p :: ps, x :: xs => p == x && startsWith ps xs

/-- `pat` occurs contiguously inside `l`. -/
def occursIn (pat l : List Char) : Prop := ∃ a b, l = a ++ pat ++ b

/-- The number of positions of `l` at which `pat` starts. -/
def countOcc (pat : List Char) : List Char → Nat
  | [] => if startsWith pat [] then 1 else 0
  | x :: rest => (if startsWith pat (x :: rest) then 1 else 0) + countOcc pat rest

theorem startsWith_iff (p : List Char) : ∀ l : List Char, startsWith p l = true ↔ ∃ t, l = p ++ t := by
  induction p with
  | nil => intro l; simp [startsWith]
  | cons x xs ih =>
    intro l
    cases l with
    | nil =>
      simp [startsWith]
    | cons y ys =>
      simp only [startsWith, Bool.and_eq_true, beq_iff_eq, List.cons_append, List.cons.injEq]
      constructor
      · rintro ⟨rfl, h⟩
        obtain ⟨t, rfl⟩ := (ih ys).mp h
        exact ⟨t, rfl, rfl⟩
      · rintro ⟨t, h1, h2⟩
        exact ⟨h1.symm, (ih ys).mpr ⟨t, h2⟩⟩

theorem occursIn_cons (pat : List Char) (x : Char) (l : List Char) :
    occursIn pat (x :: l) ↔ startsWith pat (x :: l) = true ∨ occursIn pat l := by
  constructor
  · rintro ⟨a, b, h⟩
    cases a with
    | nil => exact Or.inl ((startsWith_iff pat (x :: l)).mpr ⟨b, by simpa using h⟩)
    | cons a0 a' =>
      rw [List.cons_append, List.cons_append] at h
      injection h with h1 h2
      exact Or.inr ⟨a', b, h2⟩
  · rintro (h | ⟨a, b, h⟩)
    · obtain ⟨t, ht⟩ := (startsWith_iff pat (x :: l)).mp h
      exact ⟨[], t, by simpa using ht⟩
    · exact ⟨x :: a, b, by simp [h]⟩

theorem countOcc_eq_zero (pat : List Char) : ∀ l : List Char, countOcc pat l = 0 ↔ ¬ occursIn pat l := by
  intro l
  induction l with
  | nil =>
    by_cases hp : pat = []
    · subst hp
      simp [countOcc, startsWith, occursIn]
    · simp only [countOcc, occursIn]
      rw [if_neg]
      · simp only [true_iff, not_exists]
        intro a b h
        rcases List.append_eq_nil.mp (List.append_eq_nil.mp h.symm).1 with ⟨_, h2⟩
        exact hp h2
      · intro hsw
        obtain ⟨t, ht⟩ := (startsWith_iff pat []).mp hsw
        exact hp (List.append_eq_nil.mp ht.symm).1
  | cons x rest ih =>
    rw [occursIn_cons]
    simp only [countOcc]
    by_cases hsw : startsWith pat (x :: rest) = true
    · simp [hsw]
    · simp [hsw, ih]

theorem occursIn_iff_countOcc (pat l : List Char) : occursIn pat l ↔ ¬ countOcc pat l = 0 := by
  rw [countOcc_eq_zero, not_not]

instance occursIn.decidable (pat l : List Char) : Decidable (occursIn pat l) :=
  decidable_of_iff (¬ countOcc pat l = 0) (occursIn_iff_countOcc pat l).symm

theorem countOcc_skip (hc : Char) (pt : List Char) :
    ∀ s l : List Char, hc ∉ s → countOcc (hc :: pt) (s ++ l) = countOcc (hc :: pt) l := by
  intro s
  induction s with
  | nil => intro l _; rfl
  | cons x s' ih =>
    intro l hmem
    have hx : hc ≠ x := fun h => hmem (h ▸ List.mem_cons_self x s')
    have hsw : startsWith (hc :: pt) (x :: (s' ++ l)) = false := by
      simp [startsWith, hx]
    rw [List.cons_append]
    simp only [countOcc, hsw]
    simpa using ih l (fun h => hmem (List.mem_cons_of_mem x h))

theorem occursIn_skip (hc : Char) (pt s l : List Char) (h : hc ∉ s) :
    occursIn (hc :: pt) (s ++ l) ↔ occursIn (hc :: pt) l := by
  rw [occursIn_iff_countOcc, occursIn_iff_countOcc, countOcc_skip hc pt s l h]

theorem countOcc_cons_self (hc : Char) (pt l : List Char) :
    countOcc (hc :: pt) ((hc :: pt) ++ l) = 1 + countOcc (hc :: pt) (pt ++ l) := by
  have hsw : startsWith (hc :: pt) ((hc :: pt) ++ l) = true :=
    (startsWith_iff (hc :: pt) ((hc :: pt) ++ l)).mpr ⟨l, rfl⟩
  rw [List.cons_append] at hsw ⊢
  simp only [countOcc, hsw, if_true]

theorem occursIn_sub (p q l : List Char) (h : occursIn (p ++ q) l) : occursIn p l := by
  obtain ⟨a, b, h⟩ := h
  exact ⟨a, q ++ b, by simp only [h, List.append_assoc]⟩

theorem occursIn_len (pat l : List Char) (h : occursIn pat l) : pat.length ≤ l.length := by
  obtain ⟨a, b, rfl⟩ := h
  simp only [List.length_append]
  omega

theorem startsWith_append_cases (pat a b : List Char) (h : startsWith pat (a ++ b) = true) :
    startsWith pat a = true ∨ ∃ q, pat = a ++ q ∧ q ≠ [] ∧ startsWith q b = true := by
  obtain ⟨t, ht⟩ := (startsWith_iff pat (a ++ b)).mp h
  rcases List.append_eq_append_iff.mp ht with ⟨a', ha1, ha2⟩ | ⟨c', hc1, hc2⟩
  · cases a' with
    | nil => exact Or.inl ((startsWith_iff pat a).mpr ⟨[], by rw [ha1]; simp⟩)
    | cons q0 q' =>
      exact Or.inr ⟨q0 :: q', ha1, by simp, (startsWith_iff (q0 :: q') b).mpr ⟨t, ha2⟩⟩
  · exact Or.inl ((startsWith_iff pat a).mpr ⟨c', hc1⟩)

theorem occursIn_append_cases (pat : List Char) :
    ∀ a b : List Char, occursIn pat (a ++ b) →
      occursIn pat a ∨ occursIn pat b ∨
        ∃ p q a1, pat = p ++ q ∧ q ≠ [] ∧ startsWith q b = true ∧ a = a1 ++ p := by
  intro a
  induction a with
  | nil => intro b h; exact Or.inr (Or.inl (by simpa using h))
  | cons x a' ih =>
    intro b h
    rw [List.cons_append, occursIn_cons] at h
    rcases h with h | h
    · rw [← List.cons_append] at h
      rcases startsWith_append_cases pat (x :: a') b h with h1 | ⟨q, hq1, hq2, hq3⟩
      · obtain ⟨t, ht⟩ := (startsWith_iff pat (x :: a')).mp h1
        exact Or.inl ⟨[], t, by simpa using ht⟩
      · exact Or.inr (Or.inr ⟨x :: a', q, [], hq1, hq2, hq3, rfl⟩)
    · rcases ih b h with h1 | h1 | ⟨p, q, a1, h1, h2, h3, h4⟩
      · obtain ⟨u, v, huv⟩ := h1
        exact Or.inl ⟨x :: u, v, by simp [huv]⟩
      · exact Or.inr (Or.inl h1)
      · exact Or.inr (Or.inr ⟨p, q, x :: a1, h1, h2, h3, by simp [h4]⟩)

/-! ### Application startup (`GeminiChatService.__init__` / `create_app`) -/

/-- The constructed service state: the configured API key. -/
structure ServiceState where
  api_key : List Char
  deriving DecidableEq, Repr

/-- The service constructor: reads `GOOGLE_API_KEY` from the environment
(`none` models an absent variable); Python `if not api_key` treats both
`None` and the empty string as falsy and raises `ValueError`. -/
def serviceInit (env_api_key : Option (List Char)) : Except (List Char) ServiceState :=
  match env_api_key with
  | none => Except.error "GOOGLE_API_KEY environment variable is required".data
  | some k =>
    if k = [] then Except.error "GOOGLE_API_KEY environment variable is required".data
    else Except.ok ⟨k⟩

/-- `create_app`: constructs the service before any route can be served;
a constructor failure propagates and no application is produced. -/
def create_app (env_api_key : Option (List Char)) : Except (List Char) ServiceState :=
  serviceInit env_api_key

/-! ### Chat client (`ChatClient.send_message`) -/

/-- The outcome of the HTTP POST performed by the client: either a
response — status code, the message the requests library would attach to
a `raise_for_status` error for it, and the `reply` field of the JSON body
when present — or a `RequestException` (connection refused, timeout,
malformed body) carrying its message. -/
inductive PostResult where
  | response : Nat → List Char → Option (List Char) → PostResult
  | requestError : List Char → PostResult
  deriving DecidableEq, Repr

/-- `ChatClient.send_message` after the POST. `raise_for_status` raises
`HTTPError` exactly for status codes 400–599; every `RequestException`
(from the transport or from `raise_for_status`) is caught and turned into
the string `"Error: " ++ details`. Otherwise the `reply` field is read
from the parsed body — a missing field raises a `KeyError`, which is not
a `RequestException` and propagates (the `Except.error` result). -/
def send_message : PostResult → Except (List Char) (List Char)
  | PostResult.requestError e => Except.ok ("Error: ".data ++ e)
  | PostResult.response status errDetails reply =>
    if 400 ≤ status ∧ status < 600 then Except.ok ("Error: ".data ++ errDetails)
    else
      match reply with
      | some r => Except.ok r
      | none => Except.error "KeyError: reply".data

/-! ### Interactive loop (`ChatClient.interactive_chat`) -/

/-- The characters removed by Python `str.strip()` (ASCII whitespace). -/
def isPySpace (c : Char) : Bool :=
  c = ' ' || c = '\t' || c = '\n' || c = '\r' || c = '\x0b' || c = '\x0c'

/-- Python `str.strip()`: removes leading and trailing whitespace. -/
def pyStrip (s : List Char) : List Char :=
  ((s.dropWhile isPySpace).reverse.dropWhile isPySpace).reverse

/-- Python `str.lower()` on a single ASCII character. -/
def pyLowerChar (c : Char) : Char :=
  if 'A' ≤ c ∧ c ≤ 'Z' then Char.ofNat (c.toNat + 32) else c

/-- Python `str.lower()`. -/
def pyLower (s : List Char) : List Char := s.map pyLowerChar

/-- The observable effect of one iteration of the interactive loop:
whether the loop keeps running, the held context after the iteration, and
the `(message, context)` pair sent to `send_message`, when one is sent. -/
structure StepResult where
  running : Bool
  context : List Char
  sent : Option (List Char × List Char)
  deriving DecidableEq, Repr

/-- One iteration of the `while True` loop of
`ChatClient.interactive_chat` on the raw line read from the terminal and
the currently held context: the line is stripped; a lower-cased `quit`,
`exit` or `q` breaks the loop; a lower-cased `clear` resets the context;
an empty stripped line continues; anything else is sent via
`send_message(user_input, context)`. -/
def interactiveStep (rawInput context : List Char) : StepResult :=
  let user_input := pyStrip rawInput
  if pyLower user_input = "quit".data ∨ pyLower user_input = "exit".data ∨
      pyLower user_input = "q".data then
    ⟨false, context, none⟩
  else if pyLower user_input = "clear".data then
    ⟨true, [], none⟩
  else if user_input = [] then
    ⟨true, context, none⟩
  else
    ⟨true, context, some (user_input, context)⟩

/-! ### Helper lemmas -/

theorem head?_dropWhile (p : Char → Bool) :
    ∀ l : List Char, ∀ x : Char, (l.dropWhile p).head? = some x → p x = false := by
  intro l
  induction l with
  | nil => intro x h; simp [List.dropWhile] at h
  | cons y ys ih =>
    intro x h
    rw [List.dropWhile_cons] at h
    by_cases hy : p y = true
    · rw [if_pos hy] at h
      exact ih x h
    · rw [if_neg hy] at h
      simp only [List.head?] at h
      injection h with h'
      rw [← h']
      simpa using hy

theorem getLast?_dropWhile (p : Char → Bool) :
    ∀ l : List Char, l.dropWhile p ≠ [] → (l.dropWhile p).getLast? = l.getLast? := by
  intro l
  induction l with
  | nil => intro h; simp [List.dropWhile] at h
  | cons y ys ih =>
    intro h
    rw [List.dropWhile_cons] at h ⊢
    by_cases hy : p y = true
    · rw [if_pos hy] at h ⊢
      cases ys with
      | nil => simp [List.dropWhile] at h
      | cons z zs => rw [ih h, List.getLast?_cons_cons]
    · rw [if_neg hy]

theorem pyStrip_head (s : List Char) (x : Char) (h : (pyStrip s).head? = some x) :
    isPySpace x = false := by
  rw [pyStrip, List.head?_reverse] at h
  have hne : (((s.dropWhile isPySpace).reverse).dropWhile isPySpace) ≠ [] := by
    intro he
    rw [he] at h
    simp at h
  rw [getLast?_dropWhile isPySpace _ hne, List.getLast?_reverse] at h
  exact head?_dropWhile isPySpace _ x h

theorem pyStrip_last (s : List Char) (x : Char) (h : (pyStrip s).getLast? = some x) :
    isPySpace x = false := by
  rw [pyStrip, List.getLast?_reverse] at h
  exact head?_dropWhile isPySpace _ x h

/-! ### The claims -/

/-- C1: for every request body with a non-empty message and a completion
client returning the string `r`, POST `/conversation` returns status 200
with body `reply = r`: the provider's completion is returned verbatim
with no post-processing. -/
theorem claim1_reply_verbatim (msg r : List Char) (bgf : JsonField) (hmsg : msg ≠ []) :
    handle_conversation (fun _ => Except.ok r) (some msg) bgf = HttpResponse.success r := by
  have hlen : 1 ≤ msg.length := List.length_pos.mpr hmsg
  simp [handle_conversation, validateMessage, hlen, generate_response]

theorem claim1_witness :
    handle_conversation (fun _ => Except.ok "Hi there".data) (some "Hello".data) JsonField.absent
      = HttpResponse.success "Hi there".data :=
  claim1_reply_verbatim "Hello".data "Hi there".data JsonField.absent (by decide)

/-- Modelled from the spec's words (section 4.1), for the refinement claim
C2: the fixed preamble, then the context segment — `"Context: " ++ context`
when `context` is non-empty and the empty string otherwise — then a blank
line, then `"User inquiry: " ++ message`. -/
def renderPromptSpec (context message : List Char) : List Char :=
  "You are a helpful AI assistant. ".data ++
    (if context = [] then [] else "Context: ".data ++ context) ++
    "\n\n".data ++ ("User inquiry: ".data ++ message)

/-- C2: for every context and message the render function is total and
returns exactly the preamble, the context segment, a blank line and the
user-inquiry segment, as the spec describes. -/
theorem claim2_render (context message : List Char) :
    renderPrompt context message = renderPromptSpec context message := by
  have h : userInquiryTag = "\n\n".data ++ "User inquiry: ".data := by decide
  simp only [renderPrompt, renderPromptSpec, backgroundContext, preamble, contextTag, h,
    List.append_assoc]

/-- C3 fails as stated: with empty context and the message `"Context:"`
the rendered prompt does contain an occurrence of the substring
`"Context:"`, although the claim says it contains none. -/
theorem claim3_counterexample :
    occursIn contextWord (renderPrompt [] "Context:".data) := by decide

/-- C3 as amended: provided the substring `"Context:"` occurs in neither
the context nor the message, the rendered prompt contains no occurrence
of `"Context:"` when the context is empty, and exactly one occurrence of
`"Context: " ++ context` when the context is non-empty, that occurrence
standing before the user-inquiry segment. -/
theorem claim3_amended (context message : List Char)
    (hc : ¬ occursIn contextWord context) (hm : ¬ occursIn contextWord message) :
    (context = [] → ¬ occursIn contextWord (renderPrompt context message)) ∧
    (context ≠ [] →
      countOcc (contextTag ++ context) (renderPrompt context message) = 1 ∧
      renderPrompt context message =
        preamble ++ (contextTag ++ context) ++ (userInquiryTag ++ message)) := by
  have eW : contextWord = 'C' :: "ontext:".data := by decide
  have eT : contextTag = contextWord ++ [' '] := by decide
  constructor
  · rintro rfl hocc
    apply hm
    have e1 : renderPrompt [] message = preamble ++ (userInquiryTag ++ message) := by
      simp [renderPrompt, backgroundContext]
    rw [e1, eW] at hocc
    rw [occursIn_skip 'C' _ preamble _ (by decide)] at hocc
    rw [occursIn_skip 'C' _ userInquiryTag _ (by decide)] at hocc
    rw [← eW] at hocc
    exact hocc
  · intro hne
    have e2 : renderPrompt context message =
        preamble ++ (contextTag ++ context) ++ (userInquiryTag ++ message) := by
      rw [renderPrompt, backgroundContext, if_neg hne]
      simp [List.append_assoc]
    refine ⟨?_, e2⟩
    have eP : contextTag ++ context = 'C' :: ("ontext: ".data ++ context) := by
      rw [show contextTag = 'C' :: "ontext: ".data from by decide]
      rfl
    rw [e2, List.append_assoc, eP, countOcc_skip 'C' _ preamble _ (by decide), ← eP]
    rw [show preamble ++ (contextTag ++ context) ++ (userInquiryTag ++ message) =
        preamble ++ ((contextTag ++ context) ++ (userInquiryTag ++ message)) from by
      simp [List.append_assoc]] at e2
    rw [eP, countOcc_cons_self 'C' _ _, ← eP]
    have hzero :
        countOcc (contextTag ++ context)
          (("ontext: ".data ++ context) ++ (userInquiryTag ++ message)) = 0 := by
      rw [countOcc_eq_zero]
      intro hocc
      rw [List.append_assoc, eP] at hocc
      rw [occursIn_skip 'C' _ "ontext: ".data _ (by decide)] at hocc
      rw [← eP] at hocc
      rcases occursIn_append_cases _ context (userInquiryTag ++ message) hocc with
        h1 | h1 | ⟨p, q, a1, hpq, hqne, hqsw, ha⟩
      · have hlen := occursIn_len _ _ h1
        rw [List.length_append] at hlen
        have h9 : contextTag.length = 9 := by decide
        omega
      · rw [eP] at h1
        rw [occursIn_skip 'C' _ userInquiryTag _ (by decide)] at h1
        rw [← eP] at h1
        exact hm (occursIn_sub contextWord [' '] message
          (by rw [← eT]; exact occursIn_sub contextTag context message h1))
      · rcases List.append_eq_append_iff.mp hpq with ⟨t, hp, hctx⟩ | ⟨t, hct, hq⟩
        · apply hc
          apply occursIn_sub contextWord [' '] context
          rw [← eT]
          exact ⟨a1, t, by rw [ha, hp]; simp [List.append_assoc]⟩
        · cases t with
          | nil =>
            apply hc
            apply occursIn_sub contextWord [' '] context
            rw [← eT]
            have hp : p = contextTag := by simpa using hct.symm
            exact ⟨a1, [], by rw [ha, hp]; simp⟩
          | cons th tt =>
            have hth : th = '\n' := by
              rw [hq] at hqsw
              rw [show userInquiryTag = '\n' :: "\nUser inquiry: ".data from by decide] at hqsw
              rw [List.cons_append, List.cons_append] at hqsw
              simp only [startsWith, Bool.and_eq_true, beq_iff_eq] at hqsw
              exact hqsw.1
            have hmem : ('\n' : Char) ∈ contextTag := by
              rw [hct, hth] at *
              exact List.mem_append_right p (List.mem_cons_self '\n' tt)
            revert hmem
            decide
    rw [hzero]

theorem claim3_witness :
    countOcc (contextTag ++ "bg".data) (renderPrompt "bg".data "hi".data) = 1 ∧
    renderPrompt "bg".data "hi".data =
      preamble ++ (contextTag ++ "bg".data) ++ (userInquiryTag ++ "hi".data) :=
  (claim3_amended "bg".data "hi".data (by decide) (by decide)).2 (by decide)

/-- C4: POST `/conversation` answers 422 exactly when the message field is
missing or is the empty string; a whitespace-only message such as a single
space is accepted and processed normally. -/
theorem claim4_validation (complete : List Char → Except (List Char) (List Char))
    (message : Option (List Char)) (bgf : JsonField) :
    ((handle_conversation complete message bgf).status = 422 ↔
      message = none ∨ message = some []) ∧
    (∀ r, complete (renderPrompt (orEmptyStr (validateBackgroundInfo bgf)) [' ']) = Except.ok r →
      handle_conversation complete (some [' ']) bgf = HttpResponse.success r) := by
  constructor
  · cases message with
    | none => simp [handle_conversation, validateMessage, HttpResponse.status]
    | some s =>
      by_cases hs : s = []
      · subst hs
        simp [handle_conversation, validateMessage, HttpResponse.status]
      · have hlen : 1 ≤ s.length := List.length_pos.mpr hs
        simp only [handle_conversation, validateMessage, if_pos hlen, generate_response]
        cases hcomp : complete (renderPrompt (orEmptyStr (validateBackgroundInfo bgf)) s) with
        | ok r => simp [HttpResponse.status, hs]
        | error e => simp [HttpResponse.status, hs]
  · intro r hr
    simp [handle_conversation, validateMessage, generate_response, hr]

theorem claim4_witness :
    (handle_conversation (fun _ => Except.ok "ok".data) none JsonField.absent).status = 422 ∧
    (handle_conversation (fun _ => Except.ok "ok".data) (some []) JsonField.absent).status = 422 ∧
    handle_conversation (fun _ => Except.ok "ok".data) (some [' ']) JsonField.absent
      = HttpResponse.success "ok".data :=
  ⟨((claim4_validation (fun _ => Except.ok "ok".data) none JsonField.absent).1).mpr (Or.inl rfl),
   ((claim4_validation (fun _ => Except.ok "ok".data) (some []) JsonField.absent).1).mpr
     (Or.inr rfl),
   (claim4_validation (fun _ => Except.ok "ok".data) (some [' ']) JsonField.absent).2
     "ok".data rfl⟩

/-- C5: whenever the completion call fails with message `m` on a valid
request, the handler answers with an `HTTPException` of status 500 whose
detail is exactly `"AI processing failed: " ++ m`, and that detail
contains the substring `"AI processing failed:"`. -/
theorem claim5_provider_error (complete : List Char → Except (List Char) (List Char))
    (msg m : List Char) (bgf : JsonField) (hmsg : msg ≠ [])
    (hfail : complete (renderPrompt (orEmptyStr (validateBackgroundInfo bgf)) msg)
      = Except.error m) :
    handle_conversation complete (some msg) bgf = HttpResponse.failure 500 (aiFailureTag ++ m) ∧
    occursIn "AI processing failed:".data (aiFailureTag ++ m) := by
  constructor
  · have hlen : 1 ≤ msg.length := List.length_pos.mpr hmsg
    simp [handle_conversation, validateMessage, hlen, generate_response, hfail]
  · refine ⟨[], ' ' :: m, ?_⟩
    rw [show aiFailureTag = "AI processing failed:".data ++ [' '] from by decide]
    simp

theorem claim5_witness :
    handle_conversation (fun _ => Except.error "boom".data) (some "Hello".data) JsonField.absent
      = HttpResponse.failure 500 (aiFailureTag ++ "boom".data) ∧
    occursIn "AI processing failed:".data (aiFailureTag ++ "boom".data) :=
  claim5_provider_error (fun _ => Except.error "boom".data) "Hello".data "boom".data
    JsonField.absent (by decide) rfl

/-- C6: if the API key environment variable is absent, constructing the
application fails before any endpoint exists; with a present, non-empty
key the construction succeeds. -/
theorem claim6_startup (k : List Char) (hk : k ≠ []) :
    (∃ e, create_app none = Except.error e) ∧
    (∃ s, create_app (some k) = Except.ok s) := by
  refine ⟨⟨_, rfl⟩, ⟨⟨k⟩, ?_⟩⟩
  simp [create_app, serviceInit, hk]

theorem claim6_witness :
    (∃ e, create_app none = Except.error e) ∧
    (∃ s, create_app (some "key".data) = Except.ok s) :=
  claim6_startup "key".data (by decide)

/-- C7 fails as stated: a response with the non-2xx status 300 whose JSON
body carries `reply = "pong"` makes `send_message` return `"pong"` — not a
string starting with `"Error: "` — because `raise_for_status` only raises
for status codes 400–599. -/
theorem claim7_counterexample :
    send_message (PostResult.response 300 "redirected".data (some "pong".data))
        = Except.ok "pong".data ∧
    startsWith "Error: ".data "pong".data = false :=
  ⟨rfl, rfl⟩

/-- C7 as amended: `send_message` does not raise for the enumerated
transport outcomes — against a 200 response carrying `reply = "pong"` it
returns `"pong"`; on a requests-level exception, or on a response whose
status lies in the 4xx/5xx range (the range `raise_for_status` raises
for), it returns a displayable string starting with `"Error: "` followed
by the failure details rather than propagating an exception. -/
theorem claim7_amended (d ed : List Char) (status : Nat) (reply : Option (List Char))
    (hs : 400 ≤ status ∧ status < 600) :
    send_message (PostResult.response 200 ed (some "pong".data)) = Except.ok "pong".data ∧
    send_message (PostResult.requestError d) = Except.ok ("Error: ".data ++ d) ∧
    send_message (PostResult.response status ed reply) = Except.ok ("Error: ".data ++ ed) := by
  refine ⟨?_, rfl, ?_⟩
  · simp [send_message]
  · simp [send_message, hs]

theorem claim7_witness :
    send_message (PostResult.response 200 "err".data (some "pong".data))
        = Except.ok "pong".data ∧
    send_message (PostResult.requestError "connection refused".data)
        = Except.ok ("Error: ".data ++ "connection refused".data) ∧
    send_message (PostResult.response 404 "err".data none)
        = Except.ok ("Error: ".data ++ "err".data) :=
  claim7_amended "connection refused".data "err".data 404 none (by decide)

/-- C8: one step of the interactive loop — `quit`, `exit` and `q`
terminate without sending a request, `clear` resets the held context to
empty without sending, blank input is a no-op, and any other input is
sent as a message together with the currently held context. -/
theorem claim8_interactive (input ctx : List Char) :
    interactiveStep "quit".data ctx = ⟨false, ctx, none⟩ ∧
    interactiveStep "exit".data ctx = ⟨false, ctx, none⟩ ∧
    interactiveStep "q".data ctx = ⟨false, ctx, none⟩ ∧
    interactiveStep "clear".data ctx = ⟨true, [], none⟩ ∧
    interactiveStep [] ctx = ⟨true, ctx, none⟩ ∧
    (pyStrip input = input →
      pyLower input ≠ "quit".data → pyLower input ≠ "exit".data → pyLower input ≠ "q".data →
      pyLower input ≠ "clear".data → input ≠ [] →
      interactiveStep input ctx = ⟨true, ctx, some (input, ctx)⟩) := by
  refine ⟨rfl, rfl, rfl, rfl, rfl, ?_⟩
  intro hs hq he hq2 hcl hne
  simp only [interactiveStep, hs]
  rw [if_neg (by simp [hq, he, hq2]), if_neg hcl, if_neg hne]

theorem claim8_witness :
    interactiveStep "hello".data "c".data
      = ⟨true, "c".data, some ("hello".data, "c".data)⟩ :=
  (claim8_interactive "hello".data "c".data).2.2.2.2.2 (by decide) (by decide) (by decide)
    (by decide) (by decide) (by decide)

/-- C9: the handler behaves identically whether `background_info` is
omitted, JSON null, or the empty string — all three become the context
`""` downstream and give the same response. -/
theorem claim9_context_default (complete : List Char → Except (List Char) (List Char))
    (message : Option (List Char)) :
    handle_conversation complete message JsonField.absent
        = handle_conversation complete message JsonField.null ∧
    handle_conversation complete message JsonField.null
        = handle_conversation complete message (JsonField.str []) := by
  exact ⟨rfl, rfl⟩

/-- C10: the interactive loop strips each input line and matches its
keywords case-insensitively — `" QUIT "`, `"Exit"`, `"Q"` terminate,
`" Clear "` resets the context, a whitespace-only line is a no-op — and
every message actually sent is the stripped form of the typed line, with
no leading or trailing whitespace. -/
theorem claim10_interactive (input ctx : List Char) :
    interactiveStep " QUIT ".data ctx = ⟨false, ctx, none⟩ ∧
    interactiveStep "Exit".data ctx = ⟨false, ctx, none⟩ ∧
    interactiveStep "Q".data ctx = ⟨false, ctx, none⟩ ∧
    interactiveStep " Clear ".data ctx = ⟨true, [], none⟩ ∧
    interactiveStep "   ".data ctx = ⟨true, ctx, none⟩ ∧
    (∀ r ctx2 m c, interactiveStep input ctx = ⟨r, ctx2, some (m, c)⟩ →
      m = pyStrip input ∧
      (∀ x, m.head? = some x → isPySpace x = false) ∧
      (∀ x, m.getLast? = some x → isPySpace x = false)) := by
  refine ⟨rfl, rfl, rfl, rfl, rfl, ?_⟩
  intro r ctx2 m c hsent
  simp only [interactiveStep] at hsent
  split at hsent
  · simp at hsent
  split at hsent
  · simp at hsent
  split at hsent
  · simp at hsent
  · simp only [StepResult.mk.injEq, Option.some.injEq, Prod.mk.injEq] at hsent
    obtain ⟨-, -, hm, -⟩ := hsent
    refine ⟨hm.symm, ?_, ?_⟩
    · intro x hx
      rw [← hm] at hx
      exact pyStrip_head input x hx
    · intro x hx
      rw [← hm] at hx
      exact pyStrip_last input x hx

theorem claim10_witness :
    interactiveStep " QUIT ".data "c".data = ⟨false, "c".data, none⟩ ∧
    "hi".data = pyStrip "  hi  ".data :=
  ⟨(claim10_interactive "  hi  ".data "c".data).1,
   ((claim10_interactive "  hi  ".data "c".data).2.2.2.2.2 true "c".data "hi".data "c".data
     (by decide)).1⟩

end Chatbot
